import Mathlib

/-!
Verification development for the terramate stack-selection core.

The definitions below shallowly embed the Go functions of
`cmd/terramate/cli` (project.go): `defaultBaseRev`, `setDefaults`,
`checkDefaultRemote`, `checkRemoteDefaultBranchIsReachable`, together with
the cloud "unhealthy" list filter.  Each git probe of the external
GitHistoryPort returns a value-or-error; the Go code discards the error
(`v, _ := gw.Probe(...)`), so a failed probe yields the Go zero value
("" for strings, false for booleans).  We model each probe outcome as an
`Option`: `none` is a failed query, and the embedding applies `Option.getD`
with the zero value exactly where the Go code discards the error.
-/

namespace Terramate

/-- Git configuration block: `DefaultRemote`, `DefaultBranch`,
`DefaultBranchBaseRef` (hcl.GitConfig fields used by project.go). -/
structure GitConfig where
  defaultRemote : String
  defaultBranch : String
  defaultBranchBaseRef : String
deriving Repr, DecidableEq

/-- Outcomes of the git probes that `defaultBaseRev` performs, in the order
the Go code issues them.  `none` models a probe that returned an error. -/
structure GitState where
  /-- `RevParse("HEAD")` -/
  headRev : Option String
  /-- `RevParse(remoteDefaultBranchRef)` -/
  remoteDefaultRev : Option String
  /-- `IsAncestor("HEAD", remoteDefaultBranchRef)` -/
  isAncestorHeadRemote : Option Bool
  /-- `CurrentBranch()` -/
  currentBranch : Option String
  /-- `IsFirstParentAncestor(remoteDefaultBranchRef, "HEAD")` -/
  isFirstParentAncestorRemoteHead : Option Bool
  /-- `FindForkPoint(remoteDefaultBranchRef, "HEAD")` -/
  forkPoint : Option String
deriving Repr, DecidableEq

/-- `project.remoteDefaultBranchRef`: `DefaultRemote + "/" + DefaultBranch`. -/
def remoteDefaultBranchRef (cfg : GitConfig) : String :=
  cfg.defaultRemote ++ "/" ++ cfg.defaultBranch

/-- `project.defaultBaseRev`: the six-case revision resolver of project.go.
Every probe error is discarded (`Option.getD` with the Go zero value), as in
the Go code where every probe result is taken with `, _ :=`. -/
def defaultBaseRev (cfg : GitConfig) (s : GitState) : String :=
  let ref := remoteDefaultBranchRef cfg
  let headRev := s.headRev.getD ""
  let remoteDefaultRev := s.remoteDefaultRev.getD ""
  let isRemoteDefaultRev := headRev != "" && headRev == remoteDefaultRev
  let isRemoteDefaultRevAncestor := s.isAncestorHeadRemote.getD false
  if !isRemoteDefaultRev && !isRemoteDefaultRevAncestor then
    -- Case 1 (pending)
    ref
  else
    let branch := s.currentBranch.getD ""
    let isDefaultBranch := branch != "" && branch == cfg.defaultBranch
    let isEmptyPendingBranch := isRemoteDefaultRev && !isDefaultBranch
    if isEmptyPendingBranch then
      -- Case 2 (pending)
      ref
    else if isRemoteDefaultRev then
      -- Case 3 (deployed)
      cfg.defaultBranchBaseRef
    else if s.isFirstParentAncestorRemoteHead.getD false then
      -- Case 4 (deployed)
      cfg.defaultBranchBaseRef
    else
      let forkPoint := s.forkPoint.getD ""
      if forkPoint != "" then
        -- Case 5 (historic)
        forkPoint
      else
        -- Fallback to deployed strategy
        cfg.defaultBranchBaseRef

/-- `project.setDefaults`: fills each empty git configuration field with the
policy default constant (the literal constants live outside this excerpt, so
they are parameters here). -/
def setDefaults (policyBaseRef policyBranch policyRemote : String)
    (cfg : GitConfig) : GitConfig where
  defaultRemote :=
    if cfg.defaultRemote = "" then policyRemote else cfg.defaultRemote
  defaultBranch :=
    if cfg.defaultBranch = "" then policyBranch else cfg.defaultBranch
  defaultBranchBaseRef :=
    if cfg.defaultBranchBaseRef = "" then policyBaseRef
    else cfg.defaultBranchBaseRef

/-- A configured git remote: a name plus the branches known on it
(git.Remote). -/
structure Remote where
  name : String
  branches : List String
deriving Repr, DecidableEq

/-- The two error shapes `checkDefaultRemote` can produce: the configured
remote is missing, or the configured default branch is missing on it (the
error lists the branches actually present). -/
inductive RemoteCheckError where
  | missingRemote (remote : String)
  | missingBranch (remote branch : String) (branches : List String)
deriving Repr, DecidableEq

/-- `project.checkDefaultRemote`: scans the configured remotes for the
default remote (first name match wins), then scans its branches for the
default branch.  `remotes` is the successful result of the `Remotes()`
query (a failing query is wrapped into a separate error before this logic
runs). -/
def checkDefaultRemote (cfg : GitConfig) (remotes : List Remote) :
    Except RemoteCheckError Unit :=
  match remotes.find? (fun r => r.name == cfg.defaultRemote) with
  | none => .error (.missingRemote cfg.defaultRemote)
  | some r =>
    if r.branches.contains cfg.defaultBranch then .ok ()
    else .error (.missingBranch cfg.defaultRemote cfg.defaultBranch
      r.branches)

/-- Result of `checkRemoteDefaultBranchIsReachable`: success, or the
out-of-date error carrying its remediation message. -/
inductive ReachableResult where
  | ok
  | outOfDate (message : String)
deriving Repr, DecidableEq

/-- `project.checkRemoteDefaultBranchIsReachable`: `mergeBase` is the
outcome of `MergeBase(headCommit, remoteDefaultCommit)` (`none` when the
query errors); the check fails with the out-of-date error unless the
merge-base equals the remote default branch commit itself. -/
def checkRemoteDefaultBranchIsReachable (mergeBase : Option String)
    (remoteDefaultCommit : String) : ReachableResult :=
  let outOfDateErr := ReachableResult.outOfDate
    "Please update the current branch with the latest changes from the default branch."
  match mergeBase with
  | none => outOfDateErr
  | some mergeBaseCommitID =>
    if mergeBaseCommitID != remoteDefaultCommit then outOfDateErr
    else .ok

/-- Modelled from the spec: the cloud stack status enum (OK, Failed,
Drifted); the stack-list filter implementation is outside this excerpt
(only its end-to-end test is present). -/
inductive StackStatus where
  | ok
  | failed
  | drifted
deriving Repr, DecidableEq

/-- Modelled from the spec: the deployment status sub-field of a remote
record (informational, not used in the health predicate). -/
inductive DeploymentStatus where
  | ok
  | failed
deriving Repr, DecidableEq

/-- Modelled from the spec: the drift status sub-field of a remote record
(informational, not used in the health predicate). -/
inductive DriftStatus where
  | ok
  | drifted
deriving Repr, DecidableEq

/-- Modelled from the spec: a `RemoteStackStatus` record fetched from the
cloud service: numeric id, `metaID`, `repository` (compared against the
normalized local repository string), `status`, plus informational
deployment/drift sub-statuses. -/
structure RemoteStackStatus where
  id : Nat
  metaID : String
  repository : String
  status : StackStatus
  deploymentStatus : DeploymentStatus
  driftStatus : DriftStatus
deriving Repr, DecidableEq

/-- Modelled from the spec: a local stack, identified by its
repository-relative path, carrying an optional `metaID` (empty string means
unidentified) and a tag set. -/
structure Stack where
  path : String
  metaID : String
  tags : List String
deriving Repr, DecidableEq

/-- Modelled from the spec: a status is unhealthy iff it is not OK (both
Failed and Drifted count as unhealthy). -/
def isUnhealthyStatus : StackStatus → Bool
  | .ok => false
  | .failed => true
  | .drifted => true

/-- Modelled from the spec: the `metaID` lookup over the remote records,
built only from records whose `repository` equals the current normalized
repository string (mismatched-repository records are dropped before
matching). -/
def cloudRecordFor (repo metaID : String)
    (records : List RemoteStackStatus) : Option RemoteStackStatus :=
  (records.filter (fun r => r.repository == repo)).find?
    (fun r => r.metaID == metaID)

/-- Modelled from the spec: the unhealthy filter of the stack-list command.
A local stack survives iff it has a non-empty `metaID` and the matching
same-repository record has a non-OK status; a stack with no matching record
is treated as healthy and dropped. -/
def unhealthyStacks (repo : String) (records : List RemoteStackStatus)
    (stackList : List Stack) : List Stack :=
  stackList.filter (fun s =>
    s.metaID != "" &&
      match cloudRecordFor repo s.metaID records with
      | some r => isUnhealthyStatus r.status
      | none => false)

/-- Modelled from the spec: the tag predicate — a stack is selected iff its
tags include every required tag and none of the excluded tags. -/
def tagSelected (includeTags excludeTags : List String) (s : Stack) :
    Bool :=
  includeTags.all (fun t => s.tags.contains t) &&
    excludeTags.all (fun t => !(s.tags.contains t))

/-- Modelled from the spec: validation of the status-filter flag value —
only `unhealthy` is accepted, any other explicit value is rejected with
"only unhealthy filter allowed". -/
def checkStatusFilter : Option String → Except String Unit
  | none => .ok ()
  | some v => if v == "unhealthy" then .ok ()
    else .error "only unhealthy filter allowed"

/-- Modelled from the spec: the flag-validation outcome as the command's
exit code and standard-error message, produced before any data is
fetched. -/
def statusFilterRun (v : String) : Nat × String :=
  match checkStatusFilter (some v) with
  | .ok _ => (0, "")
  | .error e => (1, e)

/-- Modelled from the spec: the stacks surviving the filter pipeline — tag
filter first, then the unhealthy filter when a status flag is present. -/
def survivingStacks (stackList : List Stack) (includeTags excludeTags :
    List String) (statusFilter : Option String) (repo : String)
    (records : List RemoteStackStatus) : List Stack :=
  let afterTags := stackList.filter (tagSelected includeTags excludeTags)
  match statusFilter with
  | some _ => unhealthyStacks repo records afterTags
  | none => afterTags

/-- Modelled from the spec: the stack-selection pipeline output — the
surviving stacks' paths, sorted lexicographically. -/
def selectPaths (stackList : List Stack) (includeTags excludeTags :
    List String) (statusFilter : Option String) (repo : String)
    (records : List RemoteStackStatus) : List String :=
  ((survivingStacks stackList includeTags excludeTags statusFilter repo
    records).map Stack.path).mergeSort (fun a b => a ≤ b)

/-- First-match-wins selection over an ordered list of (condition, result)
cases, with a default for when no case matches. -/
def firstMatch : List (Bool × String) → String → String
  | [], d => d
  | (c, r) :: rest, d => if c then r else firstMatch rest d

/-- The six-case decision procedure exactly as the specification words it,
evaluated in strict order with the first matching case winning.  "HEAD
equals the remote default commit" requires HEAD to actually resolve
(a failed `RevParse` leaves no resolved commit, which differs from every
commit). -/
def defaultBaseRevCases (cfg : GitConfig) (s : GitState) : String :=
  let ref := remoteDefaultBranchRef cfg
  let headRev := s.headRev.getD ""
  let remoteDefaultRev := s.remoteDefaultRev.getD ""
  let headEqRemote := headRev != "" && headRev == remoteDefaultRev
  let branch := s.currentBranch.getD ""
  firstMatch [
    (!headEqRemote && !(s.isAncestorHeadRemote.getD false), ref),
    (headEqRemote && branch != cfg.defaultBranch, ref),
    (headEqRemote && branch == cfg.defaultBranch, cfg.defaultBranchBaseRef),
    (s.isFirstParentAncestorRemoteHead.getD false, cfg.defaultBranchBaseRef),
    (s.forkPoint.getD "" != "", s.forkPoint.getD "")]
    cfg.defaultBranchBaseRef

end Terramate

namespace Terramate

/-- C1: the revision resolver implements the six-case decision procedure,
evaluated in strict order with the first matching case winning.  The
configured default branch name is non-empty (guaranteed by `setDefaults`). -/
theorem defaultBaseRev_eq_sixCases (cfg : GitConfig) (s : GitState)
    (h : cfg.defaultBranch ≠ "") :
    defaultBaseRev cfg s = defaultBaseRevCases cfg s := by
  unfold defaultBaseRev defaultBaseRevCases
  cases h1 : (s.headRev.getD "" != "" &&
      s.headRev.getD "" == s.remoteDefaultRev.getD "") with
  | true =>
    cases h2 : (s.currentBranch.getD "" == cfg.defaultBranch) with
    | true =>
      have heq : s.currentBranch.getD "" = cfg.defaultBranch := by
        simpa using h2
      have hb : (s.currentBranch.getD "" != "") = true := by
        simp [bne_iff_ne, heq, h]
      simp [firstMatch, h1, h2, hb, heq, h]
    | false =>
      have h2' : (s.currentBranch.getD "" != cfg.defaultBranch) = true := by
        simp [bne, h2]
      simp [firstMatch, h1, h2, h2']
  | false =>
    cases ha : s.isAncestorHeadRemote.getD false with
    | true => simp [firstMatch, h1, ha]
    | false => simp [firstMatch, h1, ha]

/-- Witness for C1 at a concrete git state. -/
theorem defaultBaseRev_eq_sixCases_witness :
    ("main" : String) ≠ "" ∧
    defaultBaseRev ⟨"origin", "main", "HEAD^"⟩
        ⟨some "c1", some "c2", some false, some "feat", some false, none⟩ =
      defaultBaseRevCases ⟨"origin", "main", "HEAD^"⟩
        ⟨some "c1", some "c2", some false, some "feat", some false, none⟩ :=
  ⟨by decide, defaultBaseRev_eq_sixCases ⟨"origin", "main", "HEAD^"⟩
    ⟨some "c1", some "c2", some false, some "feat", some false, none⟩
    (by decide)⟩

/-- C3: revision resolution never aborts — `defaultBaseRev` is a total
function, and each failing probe (`none`) is treated exactly as the negative
answer (empty string / false), for every configuration and git state. -/
theorem defaultBaseRev_degrades_on_probe_failure (cfg : GitConfig)
    (s : GitState) :
    defaultBaseRev cfg { s with headRev := none } =
      defaultBaseRev cfg { s with headRev := some "" } ∧
    defaultBaseRev cfg { s with remoteDefaultRev := none } =
      defaultBaseRev cfg { s with remoteDefaultRev := some "" } ∧
    defaultBaseRev cfg { s with isAncestorHeadRemote := none } =
      defaultBaseRev cfg { s with isAncestorHeadRemote := some false } ∧
    defaultBaseRev cfg { s with currentBranch := none } =
      defaultBaseRev cfg { s with currentBranch := some "" } ∧
    defaultBaseRev cfg { s with isFirstParentAncestorRemoteHead := none } =
      defaultBaseRev cfg
        { s with isFirstParentAncestorRemoteHead := some false } ∧
    defaultBaseRev cfg { s with forkPoint := none } =
      defaultBaseRev cfg { s with forkPoint := some "" } :=
  ⟨rfl, rfl, rfl, rfl, rfl, rfl⟩

/-- C10: when the `IsAncestor("HEAD", remote-default-ref)` probe errors
(treated as false) while HEAD's resolved commit is absent or differs from
the remote default branch commit, `defaultBaseRev` returns the remote
default branch ref via Case 1, not the Case-6 fallback. -/
theorem defaultBaseRev_case1_on_ancestor_probe_failure (cfg : GitConfig)
    (s : GitState) (hAnc : s.isAncestorHeadRemote = none)
    (hHead : s.headRev.getD "" = "" ∨
      s.headRev.getD "" ≠ s.remoteDefaultRev.getD "") :
    defaultBaseRev cfg s = remoteDefaultBranchRef cfg := by
  unfold defaultBaseRev
  have h1 : (s.headRev.getD "" != "" &&
      s.headRev.getD "" == s.remoteDefaultRev.getD "") = false := by
    rcases hHead with hh | hh
    · simp [hh]
    · simp [hh]
  simp [h1, hAnc]

/-- Witness for C10 at a concrete git state. -/
theorem defaultBaseRev_case1_on_ancestor_probe_failure_witness :
    (⟨some "c1", some "c2", none, some "feat", some false,
        some "fp"⟩ : GitState).isAncestorHeadRemote = none ∧
    defaultBaseRev ⟨"origin", "main", "HEAD^"⟩
        ⟨some "c1", some "c2", none, some "feat", some false, some "fp"⟩ =
      remoteDefaultBranchRef ⟨"origin", "main", "HEAD^"⟩ :=
  ⟨rfl, defaultBaseRev_case1_on_ancestor_probe_failure
    ⟨"origin", "main", "HEAD^"⟩
    ⟨some "c1", some "c2", none, some "feat", some false, some "fp"⟩
    rfl (Or.inr (by decide))⟩

/-- C9: after `setDefaults` fills the git defaults with non-empty policy
constants, `defaultBaseRev` never returns the empty string: every branch
yields a non-empty revision. -/
theorem defaultBaseRev_nonempty (policyBaseRef policyBranch policyRemote :
    String) (cfg : GitConfig) (s : GitState)
    (hBase : policyBaseRef ≠ "") (hBranch : policyBranch ≠ "")
    (hRemote : policyRemote ≠ "") :
    defaultBaseRev (setDefaults policyBaseRef policyBranch policyRemote cfg)
      s ≠ "" := by
  have hre : remoteDefaultBranchRef
      (setDefaults policyBaseRef policyBranch policyRemote cfg) ≠ "" := by
    intro hx
    have := congrArg String.length hx
    simp [remoteDefaultBranchRef, String.length_append] at this
    exact absurd this.1.2 (by decide)
  have hbr : (setDefaults policyBaseRef policyBranch policyRemote
      cfg).defaultBranchBaseRef ≠ "" := by
    unfold setDefaults
    dsimp only
    split
    · exact hBase
    · assumption
  unfold defaultBaseRev
  dsimp only
  split
  · exact hre
  · split
    · exact hre
    · split
      · exact hbr
      · split
        · exact hbr
        · split
          · simpa [bne_iff_ne] using (by assumption :
              ((s.forkPoint.getD "") != "") = true)
          · exact hbr

/-- C4: the HEAD-freshness check succeeds iff the merge-base query of HEAD
and the remote default commit succeeded and returned the remote default
commit itself; in every other case it fails with the out-of-date error and
its remediation message — it raises exactly in those cases. -/
theorem checkRemoteDefaultBranchIsReachable_iff (mergeBase : Option String)
    (remoteDefaultCommit : String) :
    (checkRemoteDefaultBranchIsReachable mergeBase remoteDefaultCommit =
        .ok ↔ mergeBase = some remoteDefaultCommit) ∧
    (checkRemoteDefaultBranchIsReachable mergeBase remoteDefaultCommit =
        .outOfDate
          "Please update the current branch with the latest changes from the default branch."
        ↔ mergeBase ≠ some remoteDefaultCommit) := by
  unfold checkRemoteDefaultBranchIsReachable
  cases mergeBase with
  | none => simp
  | some m =>
    by_cases hm : m = remoteDefaultCommit
    · simp [hm]
    · simp [hm, bne_iff_ne]

/-- If the name map of a remote list has no duplicates, any member whose
name matches the searched name is the remote that `find?` returns. -/
theorem find?_remote_unique {cfg : GitConfig} {remotes : List Remote}
    {r r' : Remote}
    (hN : (remotes.map Remote.name).Nodup)
    (hf : remotes.find? (fun x => x.name == cfg.defaultRemote) = some r)
    (hr' : r' ∈ remotes) (hname : r'.name = cfg.defaultRemote) : r' = r := by
  have hrmem : r ∈ remotes := List.mem_of_find?_eq_some hf
  have hrname : r.name = cfg.defaultRemote := by
    simpa using List.find?_some hf
  exact List.inj_on_of_nodup_map hN hr' hrmem (hname.trans hrname.symm)

/-- C7: assuming remote names are unique (as in git), `checkDefaultRemote`
succeeds iff the configured default remote appears among the remotes and
the configured default branch appears among that remote's branches; on
failure the error either names the missing remote, or names the missing
branch and lists the branches present on the found remote — no other error
shape exists. -/
theorem checkDefaultRemote_iff (cfg : GitConfig) (remotes : List Remote)
    (hN : (remotes.map Remote.name).Nodup) :
    (checkDefaultRemote cfg remotes = .ok () ↔
      ∃ r ∈ remotes, r.name = cfg.defaultRemote ∧
        cfg.defaultBranch ∈ r.branches) ∧
    (checkDefaultRemote cfg remotes =
        .error (.missingRemote cfg.defaultRemote) ↔
      ∀ r ∈ remotes, r.name ≠ cfg.defaultRemote) ∧
    (∀ bs, checkDefaultRemote cfg remotes =
        .error (.missingBranch cfg.defaultRemote cfg.defaultBranch bs) ↔
      ∃ r ∈ remotes, r.name = cfg.defaultRemote ∧ r.branches = bs ∧
        cfg.defaultBranch ∉ r.branches) := by
  unfold checkDefaultRemote
  cases hf : remotes.find? (fun x => x.name == cfg.defaultRemote) with
  | none =>
    have hnone : ∀ r ∈ remotes, r.name ≠ cfg.defaultRemote := by
      intro r hr
      have := List.find?_eq_none.mp hf r hr
      simpa using this
    refine ⟨?_, ?_, ?_⟩
    · simp only [iff_iff_implies_and_implies]
      constructor
      · intro hx
        exact absurd hx (by simp)
      · rintro ⟨r, hr, hname, _⟩
        exact absurd hname (hnone r hr)
    · simpa using hnone
    · intro bs
      simp only [iff_iff_implies_and_implies]
      constructor
      · intro hx
        exact absurd hx (by simp)
      · rintro ⟨r, hr, hname, _⟩
        exact absurd hname (hnone r hr)
  | some r =>
    have hrmem : r ∈ remotes := List.mem_of_find?_eq_some hf
    have hrname : r.name = cfg.defaultRemote := by
      simpa using List.find?_some hf
    by_cases hbr : cfg.defaultBranch ∈ r.branches
    · have hc : r.branches.contains cfg.defaultBranch = true := by
        simpa using hbr
      refine ⟨?_, ?_, ?_⟩
      · simp only [hc, if_pos]
        exact iff_of_true (by trivial) ⟨r, hrmem, hrname, hbr⟩
      · simp only [hc, if_pos]
        constructor
        · intro hx
          exact absurd hx (by simp)
        · intro hall
          exact absurd hrname (hall r hrmem)
      · intro bs
        simp only [hc, if_pos]
        constructor
        · intro hx
          exact absurd hx (by simp)
        · rintro ⟨r', hr', hname', _, hnotbr'⟩
          have : r' = r := find?_remote_unique hN hf hr' hname'
          subst this
          exact absurd hbr hnotbr'
    · have hc : r.branches.contains cfg.defaultBranch = false := by
        simpa using hbr
      refine ⟨?_, ?_, ?_⟩
      · simp only [hc, Bool.false_eq_true, if_false]
        constructor
        · intro hx
          exact absurd hx (by simp)
        · rintro ⟨r', hr', hname', hbr'⟩
          have : r' = r := find?_remote_unique hN hf hr' hname'
          subst this
          exact absurd hbr' hbr
      · simp only [hc, Bool.false_eq_true, if_false]
        constructor
        · intro hx
          exact absurd hx (by simp)
        · intro hall
          exact absurd hrname (hall r hrmem)
      · intro bs
        simp only [hc, Bool.false_eq_true, if_false]
        constructor
        · intro hx
          have hbs : r.branches = bs := by
            simpa using hx
          exact ⟨r, hrmem, hrname, hbs, hbr⟩
        · rintro ⟨r', hr', hname', hbs', _⟩
          have : r' = r := find?_remote_unique hN hf hr' hname'
          subst this
          simp [hbs']

/-- Witness for C7 at a concrete remote list. -/
theorem checkDefaultRemote_iff_witness :
    (([⟨"origin", ["main", "dev"]⟩, ⟨"upstream", ["main"]⟩] :
        List Remote).map Remote.name).Nodup ∧
    ((checkDefaultRemote ⟨"origin", "main", "HEAD^"⟩
        [⟨"origin", ["main", "dev"]⟩, ⟨"upstream", ["main"]⟩] = .ok () ↔
      ∃ r ∈ ([⟨"origin", ["main", "dev"]⟩, ⟨"upstream", ["main"]⟩] :
          List Remote), r.name = "origin" ∧ "main" ∈ r.branches) ∧
    (checkDefaultRemote ⟨"origin", "main", "HEAD^"⟩
        [⟨"origin", ["main", "dev"]⟩, ⟨"upstream", ["main"]⟩] =
        .error (.missingRemote "origin") ↔
      ∀ r ∈ ([⟨"origin", ["main", "dev"]⟩, ⟨"upstream", ["main"]⟩] :
          List Remote), r.name ≠ "origin") ∧
    (∀ bs, checkDefaultRemote ⟨"origin", "main", "HEAD^"⟩
        [⟨"origin", ["main", "dev"]⟩, ⟨"upstream", ["main"]⟩] =
        .error (.missingBranch "origin" "main" bs) ↔
      ∃ r ∈ ([⟨"origin", ["main", "dev"]⟩, ⟨"upstream", ["main"]⟩] :
          List Remote), r.name = "origin" ∧ r.branches = bs ∧
        "main" ∉ r.branches)) :=
  ⟨by decide, checkDefaultRemote_iff ⟨"origin", "main", "HEAD^"⟩
    [⟨"origin", ["main", "dev"]⟩, ⟨"upstream", ["main"]⟩] (by decide)⟩

/-- Witness for C9 at a concrete configuration and git state. -/
theorem defaultBaseRev_nonempty_witness :
    ("HEAD^" : String) ≠ "" ∧ ("main" : String) ≠ "" ∧
    ("origin" : String) ≠ "" ∧
    defaultBaseRev (setDefaults "HEAD^" "main" "origin" ⟨"", "", ""⟩)
      ⟨some "c1", some "c1", some true, some "main", some false, none⟩ ≠
      "" :=
  ⟨by decide, by decide, by decide,
    defaultBaseRev_nonempty "HEAD^" "main" "origin" ⟨"", "", ""⟩
      ⟨some "c1", some "c1", some true, some "main", some false, none⟩
      (by decide) (by decide) (by decide)⟩

/-- A status is classified unhealthy exactly when it is not OK. -/
theorem isUnhealthyStatus_iff (st : StackStatus) :
    isUnhealthyStatus st = true ↔ st ≠ StackStatus.ok := by
  cases st <;> simp [isUnhealthyStatus]

/-- Restricting the records to the current repository before the lookup
changes nothing: the lookup already drops mismatched-repository records. -/
theorem cloudRecordFor_filter_repo (repo mid : String)
    (records : List RemoteStackStatus) :
    cloudRecordFor repo mid
        (records.filter (fun r => r.repository == repo)) =
      cloudRecordFor repo mid records := by
  unfold cloudRecordFor
  rw [List.filter_filter]
  simp

/-- The unhealthy lookup answers true exactly when a same-repository record
with the given metaID and a non-OK status exists (records' metaIDs unique
within the repository). -/
theorem cloudRecordFor_unhealthy_iff {repo mid : String}
    {records : List RemoteStackStatus}
    (hN : ((records.filter (fun r => r.repository == repo)).map
      RemoteStackStatus.metaID).Nodup) :
    (match cloudRecordFor repo mid records with
      | some r => isUnhealthyStatus r.status
      | none => false) = true ↔
    ∃ r ∈ records, r.repository = repo ∧ r.metaID = mid ∧
      r.status ≠ StackStatus.ok := by
  unfold cloudRecordFor
  cases hf : (records.filter (fun r => r.repository == repo)).find?
      (fun r => r.metaID == mid) with
  | none =>
    simp only [Bool.false_eq_true, false_iff]
    rintro ⟨r, hr, hrepo, hmid, _⟩
    have hrf : r ∈ records.filter (fun r => r.repository == repo) := by
      simp [List.mem_filter, hr, hrepo]
    have := List.find?_eq_none.mp hf r hrf
    simp [hmid] at this
  | some r =>
    have hrf : r ∈ records.filter (fun x => x.repository == repo) :=
      List.mem_of_find?_eq_some hf
    have hrmem : r ∈ records := (List.mem_filter.mp hrf).1
    have hrrepo : r.repository = repo := by
      have := (List.mem_filter.mp hrf).2
      simpa using this
    have hrmid : r.metaID = mid := by
      simpa using List.find?_some hf
    constructor
    · intro hx
      exact ⟨r, hrmem, hrrepo, hrmid, (isUnhealthyStatus_iff r.status).mp hx⟩
    · rintro ⟨r', hr', hrepo', hmid', hstatus'⟩
      have hrf' : r' ∈ records.filter (fun x => x.repository == repo) := by
        simp [List.mem_filter, hr', hrepo']
      have : r' = r := List.inj_on_of_nodup_map hN hrf' hrf
        (hmid'.trans hrmid.symm)
      subst this
      exact (isUnhealthyStatus_iff r'.status).mpr hstatus'

/-- C2: with the unhealthy filter active, a local stack is in the result
iff it has a non-empty metaID and some record with that metaID, the current
repository, and a non-OK status exists (Failed and Drifted both count);
and dropping the mismatched-repository records beforehand changes nothing.
Records' metaIDs are unique within the repository (spec invariant). -/
theorem unhealthyStacks_iff (repo : String)
    (records : List RemoteStackStatus) (stackList : List Stack) (st : Stack)
    (hN : ((records.filter (fun r => r.repository == repo)).map
      RemoteStackStatus.metaID).Nodup) :
    (st ∈ unhealthyStacks repo records stackList ↔
      st ∈ stackList ∧ st.metaID ≠ "" ∧
        ∃ r ∈ records, r.repository = repo ∧ r.metaID = st.metaID ∧
          r.status ≠ StackStatus.ok) ∧
    unhealthyStacks repo (records.filter (fun r => r.repository == repo))
        stackList = unhealthyStacks repo records stackList := by
  constructor
  · unfold unhealthyStacks
    rw [List.mem_filter]
    rw [Bool.and_eq_true]
    rw [cloudRecordFor_unhealthy_iff hN]
    simp [bne_iff_ne, and_assoc]
  · unfold unhealthyStacks
    simp only [cloudRecordFor_filter_repo]

/-- Witness for C2 at the concrete fixture of the end-to-end test: two
local stacks, one matching failed record, one matching OK record. -/
theorem unhealthyStacks_iff_witness :
    ((([⟨1, "s1", "repoA", .failed, .failed, .ok⟩,
        ⟨2, "s2", "repoA", .ok, .ok, .ok⟩] :
        List RemoteStackStatus).filter
        (fun r => r.repository == "repoA")).map
      RemoteStackStatus.metaID).Nodup ∧
    ((⟨"s1", "s1", []⟩ : Stack) ∈ unhealthyStacks "repoA"
        [⟨1, "s1", "repoA", .failed, .failed, .ok⟩,
          ⟨2, "s2", "repoA", .ok, .ok, .ok⟩]
        [⟨"s1", "s1", []⟩, ⟨"s2", "s2", []⟩] ↔
      (⟨"s1", "s1", []⟩ : Stack) ∈
          ([⟨"s1", "s1", []⟩, ⟨"s2", "s2", []⟩] : List Stack) ∧
        ("s1" : String) ≠ "" ∧
        ∃ r ∈ ([⟨1, "s1", "repoA", .failed, .failed, .ok⟩,
            ⟨2, "s2", "repoA", .ok, .ok, .ok⟩] : List RemoteStackStatus),
          r.repository = "repoA" ∧ r.metaID = "s1" ∧
            r.status ≠ StackStatus.ok) ∧
    unhealthyStacks "repoA"
        (([⟨1, "s1", "repoA", .failed, .failed, .ok⟩,
          ⟨2, "s2", "repoA", .ok, .ok, .ok⟩] :
          List RemoteStackStatus).filter
          (fun r => r.repository == "repoA"))
        [⟨"s1", "s1", []⟩, ⟨"s2", "s2", []⟩] =
      unhealthyStacks "repoA"
        [⟨1, "s1", "repoA", .failed, .failed, .ok⟩,
          ⟨2, "s2", "repoA", .ok, .ok, .ok⟩]
        [⟨"s1", "s1", []⟩, ⟨"s2", "s2", []⟩] :=
  ⟨by decide, unhealthyStacks_iff "repoA"
    [⟨1, "s1", "repoA", .failed, .failed, .ok⟩,
      ⟨2, "s2", "repoA", .ok, .ok, .ok⟩]
    [⟨"s1", "s1", []⟩, ⟨"s2", "s2", []⟩] ⟨"s1", "s1", []⟩ (by decide)⟩

/-- C5: a local stack with an empty metaID never appears in an
unhealthy-filtered result, for any remote data, but does appear in the
unfiltered default listing. -/
theorem emptyMetaID_never_unhealthy (repo : String)
    (records : List RemoteStackStatus) (stackList : List Stack) (st : Stack)
    (hm : st.metaID = "") :
    (∀ l : List Stack, st ∉ unhealthyStacks repo records l) ∧
    (st ∈ stackList →
      st.path ∈ selectPaths stackList [] [] none repo records) := by
  constructor
  · intro l hmem
    have := (List.mem_filter.mp hmem).2
    rw [Bool.and_eq_true] at this
    have hb := this.1
    rw [hm] at hb
    simp at hb
  · intro hmem
    unfold selectPaths
    rw [List.mem_mergeSort]
    refine List.mem_map.mpr ⟨st, ?_, rfl⟩
    unfold survivingStacks
    simpa [tagSelected] using hmem

/-- Witness for C5 at a concrete stack without metaID, with unhealthy
remote data present. -/
theorem emptyMetaID_never_unhealthy_witness :
    (("" : String) = "") ∧
    ((∀ l : List Stack, (⟨"noid", "", []⟩ : Stack) ∉ unhealthyStacks "repoA"
        [⟨1, "noid", "repoA", .failed, .failed, .ok⟩] l) ∧
      ((⟨"noid", "", []⟩ : Stack) ∈
          ([⟨"noid", "", []⟩, ⟨"s1", "s1", []⟩] : List Stack) →
        ("noid" : String) ∈ selectPaths
          [⟨"noid", "", []⟩, ⟨"s1", "s1", []⟩] [] [] none "repoA"
          [⟨1, "noid", "repoA", .failed, .failed, .ok⟩])) :=
  ⟨rfl, emptyMetaID_never_unhealthy "repoA"
    [⟨1, "noid", "repoA", .failed, .failed, .ok⟩]
    [⟨"noid", "", []⟩, ⟨"s1", "s1", []⟩] ⟨"noid", "", []⟩ rfl⟩

/-- C6: every status-filter value other than `unhealthy` is rejected with
"only unhealthy filter allowed" and exit code 1; `unhealthy` is the only
accepted value. -/
theorem statusFilter_only_unhealthy (v : String) (hv : v ≠ "unhealthy") :
    statusFilterRun v = (1, "only unhealthy filter allowed") ∧
    checkStatusFilter (some v) = .error "only unhealthy filter allowed" ∧
    checkStatusFilter (some "unhealthy") = .ok () ∧
    statusFilterRun "unhealthy" = (0, "") := by
  have hb : (v == "unhealthy") = false := by
    simpa using hv
  refine ⟨?_, ?_, rfl, rfl⟩
  · simp [statusFilterRun, checkStatusFilter, hb]
  · simp [checkStatusFilter, hb]

/-- Witness for C6 at the rejected value of the end-to-end test. -/
theorem statusFilter_only_unhealthy_witness :
    ("drifted" : String) ≠ "unhealthy" ∧
    (statusFilterRun "drifted" = (1, "only unhealthy filter allowed") ∧
      checkStatusFilter (some "drifted") =
        .error "only unhealthy filter allowed" ∧
      checkStatusFilter (some "unhealthy") = .ok () ∧
      statusFilterRun "unhealthy" = (0, "")) :=
  ⟨by decide, statusFilter_only_unhealthy "drifted" (by decide)⟩

/-- C8: the emitted stack paths are the surviving stacks' paths sorted
lexicographically (a sorted permutation of them), and the pipeline is a
pure function, so identical inputs give identical output. -/
theorem selectPaths_sorted_deterministic (stackList : List Stack)
    (includeTags excludeTags : List String) (statusFilter : Option String)
    (repo : String) (records : List RemoteStackStatus) :
    (selectPaths stackList includeTags excludeTags statusFilter repo
      records).Pairwise (fun a b : String => a ≤ b) ∧
    (selectPaths stackList includeTags excludeTags statusFilter repo
      records).Perm ((survivingStacks stackList includeTags excludeTags
        statusFilter repo records).map Stack.path) ∧
    selectPaths stackList includeTags excludeTags statusFilter repo
        records =
      selectPaths stackList includeTags excludeTags statusFilter repo
        records := by
  refine ⟨?_, List.mergeSort_perm _ _, rfl⟩
  have h := @List.sorted_mergeSort String
    (fun a b : String => decide (a ≤ b))
    (fun a b c hab hbc => by
      simp only [decide_eq_true_eq] at hab hbc ⊢
      exact le_trans hab hbc)
    (fun a b => by
      simp only [Bool.or_eq_true, decide_eq_true_eq]
      exact le_total a b)
    ((survivingStacks stackList includeTags excludeTags statusFilter repo
      records).map Stack.path)
  exact h.imp (fun hab => by simpa using hab)

end Terramate
